import Mathlib

/-!
# Verification of the R-Type lobby / connection protocol

Shallow embedding of the connection-establishment and pre-game lobby
protocol of the R-Type server. The repository ships the black-box test
scripts `scripts/test_tcp_connection.py` and `scripts/dummy_client.py`;
the server itself (Frame Decoder, Packet Codec, Connection Registry,
Lobby Coordinator, Connection State Machine) is described by the
specification. Definitions below are either translated from the Python
test scripts (packet builders) or, where the server code is absent,
modelled from the specification; each definition's doc comment states
its origin.

Bytes are modelled as natural numbers below 256; byte strings as
`List Nat`. All multi-byte integer fields are little-endian on the wire.
-/

namespace RType

/-- Little-endian encoding of a 16-bit field into two bytes. -/
def le16 (n : Nat) : List Nat := [n % 256, n / 256 % 256]

/-- Little-endian encoding of a 32-bit field into four bytes. -/
def le32 (n : Nat) : List Nat :=
  [n % 256, n / 256 % 256, n / 65536 % 256, n / 16777216 % 256]

/-- Little-endian read of a 16-bit field from two bytes. -/
def readLE16 (a b : Nat) : Nat := a + 256 * b

/-- Little-endian read of a 32-bit field from four bytes. -/
def readLE32 (a b c d : Nat) : Nat := a + 256 * (b + 256 * (c + 256 * d))

/-- UTF-8 byte encoding of a string, as natural numbers.
Models Python's `username.encode('utf-8', errors='replace')`: Lean
strings are sequences of Unicode scalar values, so the `replace`
branch (lone surrogates) cannot arise and plain UTF-8 encoding is the
exact model. -/
def strBytes (s : String) : List Nat :=
  (s.data.flatMap String.utf8EncodeChar).map UInt8.toNat

/-- The fixed 12-byte packet header, from the layout used by
`build_connect_req` / `build_ready_status` in
`scripts/test_tcp_connection.py` (`struct.pack('<BHBIB', ...)` plus three
reserved zero bytes): opCode, payloadSize (u16 LE), packetIndex,
tickId (u32 LE), packetCount, reserved[3]. -/
def packHeader (opCode payloadSize packetIndex tickId packetCount : Nat) : List Nat :=
  opCode :: le16 payloadSize ++ [packetIndex] ++ le32 tickId ++ [packetCount] ++ [0, 0, 0]

/-- Translated from `build_connect_req` in `scripts/test_tcp_connection.py`:
truncate the UTF-8 bytes of the username to 31 bytes, left-justify
(pad on the right) with NUL to 32 bytes, and prepend the header
`(0x01, 32, 0, 0, 1)` with three reserved zero bytes. -/
def build_connect_req (username : String) : List Nat :=
  let username_bytes := (strBytes username).take 31
  let payload := username_bytes ++ List.replicate (32 - username_bytes.length) 0
  packHeader 1 32 0 0 1 ++ payload

/-- Translated from `build_ready_status` in `scripts/test_tcp_connection.py`:
header `(0x07, 4, 0, 0, 1)` with three reserved zero bytes, then the
4-byte payload `isReady (u8)` plus three reserved zero bytes. -/
def build_ready_status (is_ready : Bool) : List Nat :=
  packHeader 7 4 0 0 1 ++ [if is_ready then 1 else 0, 0, 0, 0]

/-- A byte is ASCII whitespace (space, tab, LF, VT, FF, CR). -/
def isSpaceB (b : Nat) : Bool :=
  b == 32 || b == 9 || b == 10 || b == 11 || b == 12 || b == 13

/-- Trim leading and trailing ASCII whitespace from a byte string. -/
def trimB (l : List Nat) : List Nat :=
  ((l.dropWhile isSpaceB).reverse.dropWhile isSpaceB).reverse

/-- Modelled from the spec: username normalization performed by the
Connection Registry (`tryAdmit`), absent with the server sources —
strip bytes after the first NUL terminator, then trim leading and
trailing ASCII whitespace. -/
def normalize (raw : List Nat) : List Nat :=
  trimB (raw.takeWhile (fun b => b != 0))

/-- Modelled from the spec: username field decoding by the Packet
Codec, absent with the server sources — raw bytes up to the first NUL
terminator, or the full 31 bytes if no terminator is present. -/
def decodeUsername (payload : List Nat) : List Nat :=
  (payload.take 31).takeWhile (fun b => b != 0)

/-- CONNECT_ACK status codes, from the opcode table of the spec and
`status_name` in `scripts/test_tcp_connection.py`. -/
inductive Status where
  | OK
  | ServerFull
  | BadUsername
  | InGame
deriving DecidableEq

/-- A registered player record: server-assigned id, normalized
username, readiness flag. From the spec's Connection Registry data
model, absent with the server sources. -/
structure Player where
  pid : Nat
  uname : List Nat
  ready : Bool
deriving DecidableEq

/-- Modelled from the spec: the Connection Registry / Lobby
Coordinator shared state, absent with the server sources — the
registered players and whether this lobby epoch has already started. -/
structure Lobby where
  players : List Player
  started : Bool
deriving DecidableEq

/-- The empty lobby at the start of an epoch. -/
def initLobby : Lobby := ⟨[], false⟩

/-- Fixed lobby capacity (4 in the reference behavior). -/
def capacity : Nat := 4

/-- Usernames of the currently registered players. -/
def usernames (l : Lobby) : List (List Nat) := l.players.map Player.uname

/-- Player ids of the currently registered players. -/
def pids (l : Lobby) : List Nat := l.players.map Player.pid

/-- Linear search for the first value not in `used`, starting at `s`,
with structural fuel. -/
def firstUnusedAux (used : List Nat) : Nat → Nat → Nat
  | s, 0 => s
  | s, fuel + 1 => if s ∈ used then firstUnusedAux used (s + 1) fuel else s

/-- Maximum of a list of naturals (0 for the empty list). -/
def maxList (l : List Nat) : Nat := l.foldr max 0

/-- Modelled from the spec: allocation of the smallest unused
`playerId` by the Connection Registry, absent with the server
sources. -/
def smallestUnused (used : List Nat) : Nat :=
  firstUnusedAux used 0 (maxList used + 1)

/-- Modelled from the spec: the Connection Registry admission
operation `tryAdmit`, absent with the server sources — normalize the
username; empty after trim, or already present among registered
usernames, rejects with `BadUsername`; registry at capacity rejects
with `ServerFull`; otherwise register a not-ready player under the
smallest unused `playerId` and answer `OK`. Returns the new registry
state, the status and the allocated id. -/
def tryAdmit (l : Lobby) (raw : List Nat) : Lobby × Status × Option Nat :=
  let u := normalize raw
  if u = [] then (l, Status.BadUsername, none)
  else if u ∈ usernames l then (l, Status.BadUsername, none)
  else if capacity ≤ l.players.length then (l, Status.ServerFull, none)
  else
    let pid := smallestUnused (pids l)
    ({ l with players := l.players ++ [⟨pid, u, false⟩] }, Status.OK, some pid)

/-- Modelled from the spec: the Connection Registry `remove`
operation, absent with the server sources — delete the player record
if present, releasing its id and username; idempotent. -/
def removePlayer (l : Lobby) (pid : Nat) : Lobby :=
  { l with players := l.players.filter (fun p => p.pid != pid) }

/-- Modelled from the spec: `allReady` of the Connection Registry,
absent with the server sources — true iff at least one player is
registered and every registered player's readiness flag is set. -/
def allReadyP (ps : List Player) : Bool :=
  !ps.isEmpty && ps.all (fun p => p.ready)

/-- The registered players after a readiness update for `pid`
(a no-op when `pid` is not registered). -/
def updPlayers (l : Lobby) (pid : Nat) (b : Bool) : List Player :=
  l.players.map (fun p => if p.pid = pid then { p with ready := b } else p)

/-- Modelled from the spec: the Lobby Coordinator's stable,
deterministic controlled-entity assignment from `playerId` (identity
mapping). -/
def entityOf (pid : Nat) : Nat := pid

/-- Modelled from the spec: `setReady` followed by the Lobby
Coordinator re-evaluation, absent with the server sources — update
the readiness flag (silently ignoring an unregistered `pid`); on the
first transition to all-ready within the epoch, mark the epoch
started and broadcast one GAME_START `(playerId, controlledEntityId)`
pair per registered player; otherwise broadcast nothing. -/
def setReady (l : Lobby) (pid : Nat) (b : Bool) : Lobby × List (Nat × Nat) :=
  let ps := updPlayers l pid b
  if !l.started && allReadyP ps then
    ({ players := ps, started := true }, ps.map (fun p => (p.pid, entityOf p.pid)))
  else
    ({ players := ps, started := l.started }, [])

/-- Registry-level events driving the shared lobby state: an
admission attempt, a readiness update, a disconnect. -/
inductive Event where
  | connect (raw : List Nat)
  | ready (pid : Nat) (b : Bool)
  | disconnect (pid : Nat)
deriving DecidableEq

/-- Effect of one event on the shared lobby state. -/
def applyEvent (l : Lobby) (e : Event) : Lobby :=
  match e with
  | .connect raw => (tryAdmit l raw).1
  | .ready pid b => (setReady l pid b).1
  | .disconnect pid => removePlayer l pid

/-- Run a sequence of events against a lobby state. -/
def runEvents (l : Lobby) (es : List Event) : Lobby := es.foldl applyEvent l

/-- Number of events in `es` whose processing from state `l` emits a
(non-empty) GAME_START broadcast. -/
def broadcastCount (l : Lobby) : List Event → Nat
  | [] => 0
  | e :: rest =>
    (match e with
     | .ready pid b => if (setReady l pid b).2 = [] then 0 else 1
     | _ => 0) + broadcastCount (applyEvent l e) rest

/-- Modelled from the spec: the typed packet model of the Packet
Codec, absent with the server sources — one variant per opcode of the
table, carrying the logical payload fields. -/
inductive Packet where
  | connectReq (username : List Nat)
  | connectAck (playerId : Nat) (status : Status)
  | disconnectReq
  | notifyDisconnect (playerId : Nat)
  | gameStart (controlledEntityId : Nat)
  | gameEnd
  | readyStatus (isReady : Bool)
deriving DecidableEq

/-- Wire opcode of each packet variant, from the opcode table. -/
def opcodeOf : Packet → Nat
  | .connectReq _ => 1
  | .connectAck _ _ => 2
  | .disconnectReq => 3
  | .notifyDisconnect _ => 4
  | .gameStart _ => 5
  | .gameEnd => 6
  | .readyStatus _ => 7

/-- Wire value of a CONNECT_ACK status code. -/
def statusCode : Status → Nat
  | .OK => 0
  | .ServerFull => 1
  | .BadUsername => 2
  | .InGame => 3

/-- Status decoding, inverse of `statusCode`. -/
def decodeStatus : Nat → Option Status
  | 0 => some Status.OK
  | 1 => some Status.ServerFull
  | 2 => some Status.BadUsername
  | 3 => some Status.InGame
  | _ => none

/-- Modelled from the spec: the per-opcode payload layouts produced by
the Packet Codec, absent with the server sources. -/
def payloadOf : Packet → List Nat
  | .connectReq u => u ++ List.replicate (32 - u.length) 0
  | .connectAck pid st => [pid % 256, statusCode st, 0, 0]
  | .disconnectReq => []
  | .notifyDisconnect pid => [pid % 256, 0, 0, 0]
  | .gameStart eid => le32 eid
  | .gameEnd => []
  | .readyStatus b => [if b then 1 else 0, 0, 0, 0]

/-- Modelled from the spec: Packet Codec encoding, absent with the
server sources — fixes `payloadSize` to the payload length,
`packetIndex = 0`, `tickId = 0`, `packetCount = 1` and zero-fills the
three reserved bytes. -/
def encodePacket (p : Packet) : List Nat :=
  packHeader (opcodeOf p) (payloadOf p).length 0 0 1 ++ payloadOf p

/-- Modelled from the spec: Packet Codec decoding of a framed
`(opcode, payload)` pair into a typed packet, absent with the server
sources — `none` is a decode error (payload length mismatch) or an
unknown opcode, rejected one layer above the Frame Decoder. -/
def decodePacket (opcode : Nat) (payload : List Nat) : Option Packet :=
  if opcode = 1 then
    if payload.length = 32 then some (.connectReq (decodeUsername payload)) else none
  else if opcode = 2 then
    match payload with
    | [pid, st, _, _] => (decodeStatus st).map (.connectAck pid)
    | _ => none
  else if opcode = 3 then
    if payload.length = 0 then some .disconnectReq else none
  else if opcode = 4 then
    match payload with
    | [pid, _, _, _] => some (.notifyDisconnect pid)
    | _ => none
  else if opcode = 5 then
    match payload with
    | [a, b, c, d] => some (.gameStart (readLE32 a b c d))
    | _ => none
  else if opcode = 6 then
    if payload.length = 0 then some .gameEnd else none
  else if opcode = 7 then
    match payload with
    | [r, _, _, _] => some (.readyStatus (r != 0))
    | _ => none
  else none

/-- Logical fields that fit their wire layout: username at most 31
bytes with no embedded NUL, one-byte ids below 256, entity ids below
2^32. -/
def Packet.wf : Packet → Prop
  | .connectReq u => u.length ≤ 31 ∧ (0 : Nat) ∉ u
  | .connectAck pid _ => pid < 256
  | .disconnectReq => True
  | .notifyDisconnect pid => pid < 256
  | .gameStart eid => eid < 4294967296
  | .gameEnd => True
  | .readyStatus _ => True

/-- Payload-size field of a buffered header (bytes 1 and 2,
little-endian). -/
def payloadSizeField (buf : List Nat) : Nat :=
  readLE16 (buf.getD 1 0) (buf.getD 2 0)

/-- Outcome of one Frame Decoder step on the connection's buffer. -/
inductive FrameResult where
  | needMore
  | tooBig
  | frameOk (header payload rest : List Nat)
deriving DecidableEq

/-- Modelled from the spec: the Frame Decoder, absent with the server
sources — with fewer than 12 bytes buffered it waits; a `payloadSize`
beyond the configured maximum `maxPS` is a framing error; with a full
header but fewer than `payloadSize` payload bytes it waits; otherwise
it slices one complete `(header, payload)` frame off the buffer. -/
def tryDecodeFrame (maxPS : Nat) (buf : List Nat) : FrameResult :=
  if buf.length < 12 then .needMore
  else
    let ps := payloadSizeField buf
    if maxPS < ps then .tooBig
    else if buf.length < 12 + ps then .needMore
    else .frameOk (buf.take 12) ((buf.drop 12).take ps) (buf.drop (12 + ps))

/-- A raw single-packet wire message with the given opcode and
payload: fixed header fields, three reserved zero bytes. -/
def rawPacket (op : Nat) (payload : List Nat) : List Nat :=
  packHeader op payload.length 0 0 1 ++ payload

/-- Modelled from the spec: the per-connection lifecycle states,
absent with the server sources. -/
inductive ConnState where
  | connecting
  | registered (pid : Nat) (ready : Bool)
  | inGame (pid : Nat)
  | disconnected
deriving DecidableEq

/-- Modelled from the spec: the Connection State Machine's handling of
one typed packet, absent with the server sources — a CONNECT_REQ in
`Connecting` runs an admission attempt and emits exactly one
CONNECT_ACK, staying in `Connecting` on rejection; READY_STATUS while
registered updates readiness through the registry with no direct
reply; DISCONNECT_REQ while registered removes the player; every
other (state, packet) combination is silently discarded. Returns the
connection state, the shared lobby state and the replies sent to this
connection. -/
def handlePacket (c : ConnState) (l : Lobby) (pkt : Packet) :
    ConnState × Lobby × List Packet :=
  match c, pkt with
  | .connecting, .connectReq raw =>
    let r := tryAdmit l raw
    let pid := r.2.2.getD 0
    (if r.2.1 = Status.OK then .registered pid false else .connecting,
     r.1, [.connectAck pid r.2.1])
  | .registered pid _, .readyStatus b => (.registered pid b, (setReady l pid b).1, [])
  | .registered pid _, .disconnectReq => (.disconnected, removePlayer l pid, [])
  | c, _ => (c, l, [])

/-- One layer above the Frame Decoder: decode the framed
`(opcode, payload)` pair and handle the typed packet; a decode error
or unknown opcode is silently discarded with no reply and no state
change. -/
def handleFrame (c : ConnState) (l : Lobby) (opcode : Nat) (payload : List Nat) :
    ConnState × Lobby × List Packet :=
  match decodePacket opcode payload with
  | none => (c, l, [])
  | some p => handlePacket c l p

/-! ## Concrete fixtures for witnesses -/

/-- A lobby at full capacity: four registered players `P1`..`P4`. -/
def lobFour : Lobby :=
  ⟨[⟨0, [80, 49], false⟩, ⟨1, [80, 50], false⟩, ⟨2, [80, 51], false⟩, ⟨3, [80, 52], false⟩],
   false⟩

/-- A lobby with one registered player named `TestPlayer`. -/
def lobTest : Lobby := ⟨[⟨0, strBytes "TestPlayer", false⟩], false⟩

/-- A two-player lobby in which only player 0 is ready. -/
def lobTwoOneReady : Lobby := ⟨[⟨0, [65], true⟩, ⟨1, [66], false⟩], false⟩

/-! ## Helper lemmas: smallest unused player id -/

theorem mem_le_maxList {l : List Nat} {x : Nat} (hx : x ∈ l) : x ≤ maxList l := by
  induction l with
  | nil => cases hx
  | cons a t ih =>
    rcases List.mem_cons.1 hx with rfl | hmem
    · exact le_max_left _ _
    · exact le_trans (ih hmem) (le_max_right _ _)

theorem firstUnusedAux_not_mem_or_add (used : List Nat) :
    ∀ (fuel s : Nat),
      firstUnusedAux used s fuel ∉ used ∨ firstUnusedAux used s fuel = s + fuel := by
  intro fuel
  induction fuel with
  | zero => intro s; right; simp [firstUnusedAux]
  | succ f ih =>
    intro s
    by_cases hs : s ∈ used
    · rcases ih (s + 1) with h | h
      · left; simpa [firstUnusedAux, hs] using h
      · right; simp only [firstUnusedAux, if_pos hs]; omega
    · left; simp [firstUnusedAux, hs]

theorem firstUnusedAux_minimal (used : List Nat) :
    ∀ (fuel s m : Nat), s ≤ m → m < firstUnusedAux used s fuel → m ∈ used := by
  intro fuel
  induction fuel with
  | zero =>
    intro s m hsm hlt
    simp only [firstUnusedAux] at hlt
    omega
  | succ f ih =>
    intro s m hsm hlt
    by_cases hs : s ∈ used
    · simp only [firstUnusedAux, if_pos hs] at hlt
      rcases Nat.eq_or_lt_of_le hsm with rfl | hlt2
      · exact hs
      · exact ih (s + 1) m hlt2 hlt
    · simp only [firstUnusedAux, if_neg hs] at hlt
      omega

theorem smallestUnused_not_mem (used : List Nat) : smallestUnused used ∉ used := by
  rcases firstUnusedAux_not_mem_or_add used (maxList used + 1) 0 with h | h
  · exact h
  · rw [smallestUnused, h]
    intro hmem
    have := mem_le_maxList hmem
    omega

theorem smallestUnused_minimal (used : List Nat) :
    ∀ m, m < smallestUnused used → m ∈ used := by
  intro m hm
  exact firstUnusedAux_minimal used (maxList used + 1) 0 m (Nat.zero_le m) hm

/-! ## Helper lemmas: registry invariants -/

theorem foldl_inv {P : Lobby → Prop} (h : ∀ l e, P l → P (applyEvent l e)) :
    ∀ (es : List Event) (l : Lobby), P l → P (es.foldl applyEvent l)
  | [], _, hl => hl
  | e :: es, l, hl => foldl_inv h es _ (h l e hl)

theorem updPlayers_map_pid (l : Lobby) (pid : Nat) (b : Bool) :
    (updPlayers l pid b).map Player.pid = pids l := by
  simp only [updPlayers, pids, List.map_map]
  refine List.map_congr_left ?_
  intro p _
  by_cases h : p.pid = pid <;> simp [h]

theorem updPlayers_map_uname (l : Lobby) (pid : Nat) (b : Bool) :
    (updPlayers l pid b).map Player.uname = usernames l := by
  simp only [updPlayers, usernames, List.map_map]
  refine List.map_congr_left ?_
  intro p _
  by_cases h : p.pid = pid <;> simp [h]

theorem updPlayers_length (l : Lobby) (pid : Nat) (b : Bool) :
    (updPlayers l pid b).length = l.players.length := by
  simp [updPlayers]

theorem applyEvent_length_le (l : Lobby) (e : Event)
    (h : l.players.length ≤ capacity) : (applyEvent l e).players.length ≤ capacity := by
  cases e with
  | connect raw =>
    simp only [applyEvent, tryAdmit]
    by_cases h1 : normalize raw = [] <;> simp only [h1, if_pos, if_neg, if_true, if_false]
    · exact h
    · by_cases h2 : normalize raw ∈ usernames l <;>
        simp only [h2, if_pos, if_neg, if_true, if_false]
      · exact h
      · by_cases h3 : capacity ≤ l.players.length <;>
          simp only [h3, if_pos, if_neg, if_true, if_false]
        · exact h
        · simp only [List.length_append, List.length_cons, List.length_nil]
          omega
  | ready pid b =>
    simp only [applyEvent, setReady]
    by_cases hc : (!l.started && allReadyP (updPlayers l pid b)) = true <;>
      simp [hc, updPlayers_length, h]
  | disconnect pid =>
    simp only [applyEvent, removePlayer]
    exact le_trans (List.length_filter_le _ _) h

theorem applyEvent_usernames_nodup (l : Lobby) (e : Event)
    (h : (usernames l).Nodup) : (usernames (applyEvent l e)).Nodup := by
  cases e with
  | connect raw =>
    simp only [applyEvent, tryAdmit]
    by_cases h1 : normalize raw = [] <;> simp only [h1, if_true, if_false]
    · exact h
    · by_cases h2 : normalize raw ∈ usernames l <;> simp only [h2, if_true, if_false]
      · exact h
      · by_cases h3 : capacity ≤ l.players.length <;> simp only [h3, if_true, if_false]
        · exact h
        · simp only [usernames, List.map_append, List.map_cons, List.map_nil]
          rw [List.nodup_append]
          exact ⟨h, List.nodup_singleton _, by
            simp only [List.disjoint_singleton]
            exact fun hx => h2 hx⟩
  | ready pid b =>
    simp only [applyEvent, setReady]
    by_cases hc : (!l.started && allReadyP (updPlayers l pid b)) = true <;>
      simp only [hc, if_true, if_false] <;>
      · show (List.map Player.uname (updPlayers l pid b)).Nodup
        rw [show List.map Player.uname (updPlayers l pid b) = usernames l from
          updPlayers_map_uname l pid b]
        exact h
  | disconnect pid =>
    simp only [applyEvent, removePlayer, usernames]
    exact h.sublist (List.Sublist.map _ (List.filter_sublist _))

/-! ## Helper lemmas: game-start broadcast -/

theorem setReady_snd_of_started (l : Lobby) (pid : Nat) (b : Bool)
    (h : l.started = true) : (setReady l pid b).2 = [] := by
  simp [setReady, h]

theorem setReady_emits_iff (l : Lobby) (pid : Nat) (b : Bool) :
    (setReady l pid b).2 ≠ [] ↔
      (l.started = false ∧ allReadyP (updPlayers l pid b) = true) := by
  constructor
  · intro hne
    by_cases hc : (!l.started && allReadyP (updPlayers l pid b)) = true
    · have hc2 := hc
      rw [Bool.and_eq_true] at hc2
      exact ⟨by simpa using hc2.1, hc2.2⟩
    · exact absurd (by simp [setReady, hc]) hne
  · rintro ⟨h1, h2⟩
    have hc : (!l.started && allReadyP (updPlayers l pid b)) = true := by
      simp [h1, h2]
    have hne : updPlayers l pid b ≠ [] := by
      intro he
      rw [he] at h2
      simp [allReadyP] at h2
    simp only [setReady, hc, if_true]
    simpa using hne

theorem setReady_started_of_emits (l : Lobby) (pid : Nat) (b : Bool)
    (h : (setReady l pid b).2 ≠ []) : (setReady l pid b).1.started = true := by
  rcases (setReady_emits_iff l pid b).1 h with ⟨h1, h2⟩
  have hc : (!l.started && allReadyP (updPlayers l pid b)) = true := by simp [h1, h2]
  simp [setReady, hc]

theorem applyEvent_started_mono (l : Lobby) (e : Event)
    (h : l.started = true) : (applyEvent l e).started = true := by
  cases e with
  | connect raw =>
    simp only [applyEvent, tryAdmit]
    by_cases h1 : normalize raw = [] <;> simp only [h1, if_true, if_false]
    · exact h
    · by_cases h2 : normalize raw ∈ usernames l <;> simp only [h2, if_true, if_false]
      · exact h
      · by_cases h3 : capacity ≤ l.players.length <;> simp only [h3, if_true, if_false]
        · exact h
        · exact h
  | ready pid b =>
    simp only [applyEvent, setReady]
    by_cases hc : (!l.started && allReadyP (updPlayers l pid b)) = true <;>
      simp [hc, h]
  | disconnect pid => simpa [applyEvent, removePlayer] using h

theorem broadcastCount_of_started (es : List Event) :
    ∀ (l : Lobby), l.started = true → broadcastCount l es = 0 := by
  induction es with
  | nil => intro l _; rfl
  | cons e rest ih =>
    intro l hl
    have hrest := ih (applyEvent l e) (applyEvent_started_mono l e hl)
    cases e with
    | connect raw => simpa [broadcastCount] using hrest
    | ready pid b =>
      simp [broadcastCount, setReady_snd_of_started l pid b hl, hrest]
    | disconnect pid => simpa [broadcastCount] using hrest

theorem broadcastCount_le_one (es : List Event) :
    ∀ (l : Lobby), broadcastCount l es ≤ 1 := by
  induction es with
  | nil => intro l; simp [broadcastCount]
  | cons e rest ih =>
    intro l
    cases e with
    | connect raw => simpa [broadcastCount] using ih (applyEvent l (.connect raw))
    | ready pid b =>
      by_cases hemit : (setReady l pid b).2 = []
      · simpa [broadcastCount, hemit] using ih (applyEvent l (.ready pid b))
      · have hst : (applyEvent l (Event.ready pid b)).started = true :=
          setReady_started_of_emits l pid b hemit
        simp [broadcastCount, hemit, broadcastCount_of_started rest _ hst]
    | disconnect pid => simpa [broadcastCount] using ih (applyEvent l (.disconnect pid))

/-! ## Helper lemmas: codec and frame decoder -/

theorem takeWhile_nonzero_append_zeros {u : List Nat} (hu : (0 : Nat) ∉ u) (n : Nat) :
    (u ++ List.replicate n 0).takeWhile (fun b => b != 0) = u := by
  induction u with
  | nil =>
    cases n with
    | zero => rfl
    | succ m => simp [List.replicate_succ, List.takeWhile]
  | cons a t ih =>
    have ha : a ≠ 0 := fun h => hu (by simp [h])
    have ht : (0 : Nat) ∉ t := fun h => hu (List.mem_cons_of_mem a h)
    simp only [List.cons_append, List.takeWhile_cons]
    rw [if_pos (by simpa using ha)]
    rw [ih ht]

theorem connectPayload_length (u : List Nat) (h : u.length ≤ 31) :
    (u ++ List.replicate (32 - u.length) 0).length = 32 := by
  simp only [List.length_append, List.length_replicate]
  omega

theorem decodeUsername_pad (u : List Nat) (h31 : u.length ≤ 31) (h0 : (0 : Nat) ∉ u) :
    decodeUsername (u ++ List.replicate (32 - u.length) 0) = u := by
  have htake : (u ++ List.replicate (32 - u.length) 0).take 31
      = u ++ List.replicate (31 - u.length) 0 := by
    rw [List.take_append_eq_append_take, List.take_of_length_le h31, List.take_replicate]
    congr 1
    congr 1
    omega
  rw [decodeUsername, htake, takeWhile_nonzero_append_zeros h0]

theorem readLE32_le32 (e : Nat) (he : e < 4294967296) :
    readLE32 (e % 256) (e / 256 % 256) (e / 65536 % 256) (e / 16777216 % 256) = e := by
  simp only [readLE32]
  omega

theorem decodeStatus_statusCode (st : Status) : decodeStatus (statusCode st) = some st := by
  cases st <;> rfl

theorem packHeader_length (a b c d e : Nat) : (packHeader a b c d e).length = 12 := by
  simp [packHeader, le16, le32]

theorem rawPacket_drop12 (op : Nat) (payload rest : List Nat) :
    (rawPacket op payload ++ rest).drop 12 = payload ++ rest := by
  simp [rawPacket, packHeader, le16, le32]

theorem rawPacket_length (op : Nat) (payload : List Nat) :
    (rawPacket op payload).length = 12 + payload.length := by
  simp only [rawPacket, packHeader, le16, le32, List.cons_append, List.append_assoc,
    List.nil_append, List.length_cons, List.length_append]
  omega

theorem payloadSizeField_rawPacket (op : Nat) (payload rest : List Nat)
    (h : payload.length < 65536) :
    payloadSizeField (rawPacket op payload ++ rest) = payload.length := by
  simp only [rawPacket, packHeader, le16, le32, payloadSizeField, readLE16,
    List.cons_append, List.append_assoc, List.nil_append,
    List.getD_cons_succ, List.getD_cons_zero]
  omega

theorem rawPacket_take12 (op : Nat) (payload rest : List Nat) :
    (rawPacket op payload ++ rest).take 12 = (rawPacket op payload).take 12 := by
  simp [rawPacket, packHeader, le16, le32]

theorem tryDecodeFrame_rawPacket (maxPS op : Nat) (payload rest : List Nat)
    (hlt : payload.length < 65536) (hmax : payload.length ≤ maxPS) :
    tryDecodeFrame maxPS (rawPacket op payload ++ rest)
      = FrameResult.frameOk ((rawPacket op payload).take 12) payload rest := by
  have hps := payloadSizeField_rawPacket op payload rest hlt
  have hlen : (rawPacket op payload ++ rest).length = 12 + payload.length + rest.length := by
    rw [List.length_append, rawPacket_length]
  simp only [tryDecodeFrame, hps]
  rw [if_neg (by omega), if_neg (by omega), if_neg (by omega)]
  rw [rawPacket_take12, rawPacket_drop12]
  rw [List.take_left' rfl]
  rw [List.drop_left' (by rw [rawPacket_length])]

theorem encodePacket_eq_rawPacket (p : Packet) :
    encodePacket p = rawPacket (opcodeOf p) (payloadOf p) := rfl

theorem payloadOf_connectReq_length (u : List Nat) (h : u.length ≤ 31) :
    (payloadOf (Packet.connectReq u)).length = 32 := by
  simp only [payloadOf]
  exact connectPayload_length u h

/-! ## Claims -/

/-- **C1**: for every sequence of admission attempts, the number of registered
players never exceeds the fixed lobby capacity of 4; with 4 players
registered, a 5th admission attempt with a fresh, valid username returns
status `ServerFull` and registers no player. -/
theorem capacity_invariant_server_full (es : List Event) (l : Lobby) (raw : List Nat)
    (h4 : l.players.length = 4) (hne : normalize raw ≠ [])
    (hfresh : normalize raw ∉ usernames l) :
    (runEvents initLobby es).players.length ≤ capacity
    ∧ tryAdmit l raw = (l, Status.ServerFull, none) := by
  refine ⟨foldl_inv applyEvent_length_le es initLobby (by simp [initLobby, capacity]), ?_⟩
  simp only [tryAdmit]
  rw [if_neg hne, if_neg hfresh, if_pos (by rw [h4]; decide)]

/-- Witness for C1 at a concrete trace, a concrete full lobby, and the fresh
username `Player5`. -/
theorem capacity_invariant_server_full_witness :
    (runEvents initLobby [Event.connect (strBytes "P1")]).players.length ≤ capacity
    ∧ tryAdmit lobFour (strBytes "Player5") = (lobFour, Status.ServerFull, none) :=
  capacity_invariant_server_full [Event.connect (strBytes "P1")] lobFour
    (strBytes "Player5") (by decide) (by decide) (by decide)

/-- **C3**: in every reachable registry state the normalized usernames of
concurrently-registered players are pairwise distinct, and an admission
attempt whose normalized username equals a registered one returns
`BadUsername` and registers no player. -/
theorem username_uniqueness (es : List Event) (l : Lobby) (raw : List Nat)
    (hdup : normalize raw ∈ usernames l) :
    (usernames (runEvents initLobby es)).Nodup
    ∧ tryAdmit l raw = (l, Status.BadUsername, none) := by
  refine ⟨foldl_inv applyEvent_usernames_nodup es initLobby (by simp [initLobby, usernames]), ?_⟩
  by_cases he : normalize raw = []
  · simp [tryAdmit, he]
  · simp only [tryAdmit]
    rw [if_neg he, if_pos hdup]

/-- Witness for C3: a duplicate `TestPlayer` admission attempt against a
lobby already holding `TestPlayer`. -/
theorem username_uniqueness_witness :
    (usernames (runEvents initLobby [Event.connect (strBytes "A")])).Nodup
    ∧ tryAdmit lobTest (strBytes "TestPlayer") = (lobTest, Status.BadUsername, none) :=
  username_uniqueness [Event.connect (strBytes "A")] lobTest (strBytes "TestPlayer")
    (by decide)

/-- **C2**: within one lobby epoch the GAME_START broadcast fires at most
once (`broadcastCount ≤ 1` over every event trace); a `setReady` call emits
the broadcast exactly when the epoch has not started and afterwards every
registered player — at least one — is ready; when it fires, every registered
player receives one `(playerId, controlledEntityId)` pair, the entity ids are
pairwise distinct, and the epoch is marked started so that further `setReady`
calls in the same epoch never re-trigger the broadcast. -/
theorem game_start_exactly_once (l : Lobby) (pid : Nat) (b : Bool) (es : List Event)
    (hN : (pids l).Nodup) :
    broadcastCount l es ≤ 1
    ∧ ((setReady l pid b).2 ≠ [] ↔
        (l.started = false ∧ allReadyP (updPlayers l pid b) = true))
    ∧ ((setReady l pid b).2 ≠ [] →
        (setReady l pid b).1.started = true
        ∧ (setReady l pid b).2.map Prod.fst = pids (setReady l pid b).1
        ∧ ((setReady l pid b).2.map Prod.snd).Nodup
        ∧ 1 ≤ (setReady l pid b).1.players.length)
    ∧ (l.started = true → (setReady l pid b).2 = []) := by
  refine ⟨broadcastCount_le_one es l, setReady_emits_iff l pid b, ?_,
    setReady_snd_of_started l pid b⟩
  intro hemit
  rcases (setReady_emits_iff l pid b).1 hemit with ⟨h1, h2⟩
  have hc : (!l.started && allReadyP (updPlayers l pid b)) = true := by simp [h1, h2]
  refine ⟨setReady_started_of_emits l pid b hemit, ?_, ?_, ?_⟩
  · simp only [setReady, hc, if_true]
    simp [pids, List.map_map, Function.comp, entityOf]
  · simp only [setReady, hc, if_true, List.map_map]
    have he : (Prod.snd ∘ fun p : Player => (p.pid, entityOf p.pid)) = Player.pid := rfl
    rw [he, updPlayers_map_pid]
    exact hN
  · simp only [setReady, hc, if_true]
    have hnil : updPlayers l pid b ≠ [] := by
      intro he
      rw [he] at h2
      simp [allReadyP] at h2
    have := List.length_pos.2 hnil
    omega

/-- Witness for C2: the second of two registered players turns ready; the
broadcast fires with distinct entity ids and the started flag set. -/
theorem game_start_exactly_once_witness :
    (setReady lobTwoOneReady 1 true).2 ≠ []
    ∧ ((setReady lobTwoOneReady 1 true).2.map Prod.snd).Nodup
    ∧ (setReady lobTwoOneReady 1 true).1.started = true := by
  have h := game_start_exactly_once lobTwoOneReady 1 true [] (by decide)
  have hemit : (setReady lobTwoOneReady 1 true).2 ≠ [] := by decide
  exact ⟨hemit, (h.2.2.1 hemit).2.2.1, (h.2.2.1 hemit).1⟩

/-- **C4**: `tryAdmit` normalizes the raw username (strip after the first
NUL, trim ASCII whitespace): the all-whitespace input is rejected with
`BadUsername` in every registry state; `"  Player  "` is admitted as
`"Player"`; the 50-character username `A…A` is truncated to 31 characters by
the build/decode pipeline and admitted with status `OK`; and every successful
admission registers the normalized name under the smallest unused
`playerId`. -/
theorem tryAdmit_normalization (l : Lobby) (raw : List Nat)
    (hne : normalize raw ≠ []) (hfresh : normalize raw ∉ usernames l)
    (hcap : l.players.length < capacity) :
    tryAdmit l (strBytes "     ") = (l, Status.BadUsername, none)
    ∧ tryAdmit initLobby (strBytes "  Player  ")
        = (⟨[⟨0, strBytes "Player", false⟩], false⟩, Status.OK, some 0)
    ∧ decodeUsername ((build_connect_req (String.mk (List.replicate 50 'A'))).drop 12)
        = List.replicate 31 65
    ∧ (tryAdmit initLobby
        (decodeUsername ((build_connect_req (String.mk (List.replicate 50 'A'))).drop 12))).2.1
        = Status.OK
    ∧ tryAdmit l raw
        = ({ l with players := l.players ++ [⟨smallestUnused (pids l), normalize raw, false⟩] },
           Status.OK, some (smallestUnused (pids l)))
    ∧ smallestUnused (pids l) ∉ pids l
    ∧ (∀ m, m < smallestUnused (pids l) → m ∈ pids l) := by
  refine ⟨?_, by decide, by decide, by decide, ?_, smallestUnused_not_mem _,
    smallestUnused_minimal _⟩
  · have hsp : normalize (strBytes "     ") = [] := by decide
    simp [tryAdmit, hsp]
  · simp only [tryAdmit]
    rw [if_neg hne, if_neg hfresh, if_neg (Nat.not_le.2 hcap)]

/-- Witness for C4 on the empty lobby with the raw username `Player`. -/
theorem tryAdmit_normalization_witness :
    tryAdmit initLobby (strBytes "     ") = (initLobby, Status.BadUsername, none)
    ∧ tryAdmit initLobby (strBytes "Player")
        = ({ initLobby with
              players := initLobby.players
                ++ [⟨smallestUnused (pids initLobby), normalize (strBytes "Player"), false⟩] },
           Status.OK, some (smallestUnused (pids initLobby))) := by
  have h := tryAdmit_normalization initLobby (strBytes "Player")
    (by decide) (by decide) (by decide)
  exact ⟨h.1, h.2.2.2.2.1⟩

/-- **C5**: for every well-formed logical message of any opcode in the table,
encoding then decoding reproduces the logical fields exactly; the encoder
fixes the header to `payloadSize = payload length`, `packetIndex = 0`,
`tickId = 0`, `packetCount = 1` and three zero reserved bytes (so identical
logical input yields byte-identical output, the encoder being a function);
and the encoder agrees with the source packet builders `build_connect_req`
and `build_ready_status` on their opcodes. -/
theorem codec_roundtrip (p : Packet) (hw : p.wf) (s : String) (b : Bool) :
    decodePacket (opcodeOf p) ((encodePacket p).drop 12) = some p
    ∧ (encodePacket p).take 12
        = opcodeOf p :: le16 (payloadOf p).length ++ [0] ++ le32 0 ++ [1] ++ [0, 0, 0]
    ∧ (encodePacket p).length = 12 + (payloadOf p).length
    ∧ build_connect_req s = encodePacket (Packet.connectReq ((strBytes s).take 31))
    ∧ build_ready_status b = encodePacket (Packet.readyStatus b) := by
  have hdrop : (encodePacket p).drop 12 = payloadOf p :=
    List.drop_left' (packHeader_length _ _ _ _ _)
  have htake : (encodePacket p).take 12
      = opcodeOf p :: le16 (payloadOf p).length ++ [0] ++ le32 0 ++ [1] ++ [0, 0, 0] :=
    List.take_left' (packHeader_length _ _ _ _ _)
  have hlen : (encodePacket p).length = 12 + (payloadOf p).length := by
    rw [encodePacket, List.length_append, packHeader_length]
  have hbc : build_connect_req s = encodePacket (Packet.connectReq ((strBytes s).take 31)) := by
    have h31 : ((strBytes s).take 31).length ≤ 31 := by
      rw [List.length_take]
      exact min_le_left _ _
    show packHeader 1 32 0 0 1 ++ _ = packHeader 1 _ 0 0 1 ++ _
    rw [payloadOf_connectReq_length _ h31]
    rfl
  refine ⟨?_, htake, hlen, hbc, rfl⟩
  rw [hdrop]
  cases p with
  | connectReq u =>
    rcases hw with ⟨h31, h0⟩
    have hpl : (payloadOf (Packet.connectReq u)).length = 32 :=
      payloadOf_connectReq_length u h31
    simp only [opcodeOf, decodePacket, if_pos rfl, hpl, if_pos rfl]
    rw [show payloadOf (Packet.connectReq u) = u ++ List.replicate (32 - u.length) 0 from rfl,
      decodeUsername_pad u h31 h0]
    simp
  | connectAck pid st =>
    have hpid : pid % 256 = pid := Nat.mod_eq_of_lt hw
    simp [opcodeOf, decodePacket, payloadOf, decodeStatus_statusCode, hpid]
  | disconnectReq => rfl
  | notifyDisconnect pid =>
    have hpid : pid % 256 = pid := Nat.mod_eq_of_lt hw
    simp [opcodeOf, decodePacket, payloadOf, hpid]
  | gameStart eid =>
    simp [opcodeOf, decodePacket, payloadOf, le32, readLE32_le32 eid hw]
  | gameEnd => rfl
  | readyStatus rb => cases rb <;> rfl

/-- Witness for C5 at the CONNECT_ACK message `(playerId 3, OK)` and the
builders at username `Test` and readiness `true`. -/
theorem codec_roundtrip_witness :
    decodePacket (opcodeOf (Packet.connectAck 3 Status.OK))
        ((encodePacket (Packet.connectAck 3 Status.OK)).drop 12)
      = some (Packet.connectAck 3 Status.OK)
    ∧ build_connect_req "Test" = encodePacket (Packet.connectReq ((strBytes "Test").take 31))
    ∧ build_ready_status true = encodePacket (Packet.readyStatus true) := by
  have h := codec_roundtrip (Packet.connectAck 3 Status.OK) (by simp [Packet.wf]) "Test" true
  exact ⟨h.1, h.2.2.2.1, h.2.2.2.2⟩

/-- The source builder `build_connect_req` produces exactly a raw
single-packet wire message with opcode 1 and the 32-byte padded username
payload. -/
theorem build_connect_req_eq_raw (s : String) :
    build_connect_req s
      = rawPacket 1
          ((strBytes s).take 31
            ++ List.replicate (32 - ((strBytes s).take 31).length) 0) := by
  have h31 : ((strBytes s).take 31).length ≤ 31 := by
    rw [List.length_take]
    exact min_le_left _ _
  show packHeader 1 32 0 0 1 ++ _ = packHeader 1 _ 0 0 1 ++ _
  rw [connectPayload_length _ h31]

/-- **C6**: the Frame Decoder emits no frame until all `12 + payloadSize`
bytes of the frame are buffered — with fewer than 12 bytes it waits (no
frame, no error), and with a full header but fewer than `payloadSize`
payload bytes it waits; in particular the bare 12-byte header of a
CONNECT_REQ yields no frame, while the full 44-byte packet yields exactly
its `(header, payload)` frame. -/
theorem frame_decoder_waits (maxPS : Nat) (b1 b2 : List Nat) (s : String)
    (h1 : b1.length < 12) (h2 : 12 ≤ b2.length)
    (hps : payloadSizeField b2 ≤ maxPS) (hshort : b2.length < 12 + payloadSizeField b2)
    (hmx : 32 ≤ maxPS) :
    tryDecodeFrame maxPS b1 = FrameResult.needMore
    ∧ tryDecodeFrame maxPS b2 = FrameResult.needMore
    ∧ tryDecodeFrame maxPS ((build_connect_req s).take 12) = FrameResult.needMore
    ∧ tryDecodeFrame maxPS (build_connect_req s)
        = FrameResult.frameOk ((build_connect_req s).take 12)
            ((build_connect_req s).drop 12) [] := by
  have h31 : ((strBytes s).take 31).length ≤ 31 := by
    rw [List.length_take]
    exact min_le_left _ _
  have hplen : ((strBytes s).take 31
      ++ List.replicate (32 - ((strBytes s).take 31).length) 0).length = 32 :=
    connectPayload_length _ h31
  have hhdr : (build_connect_req s).take 12 = [1, 32, 0, 0, 0, 0, 0, 0, 1, 0, 0, 0] := by
    rw [build_connect_req_eq_raw, rawPacket, List.take_left' (by rw [packHeader_length])]
    rw [hplen]
    decide
  refine ⟨by simp [tryDecodeFrame, h1], ?_, ?_, ?_⟩
  · simp only [tryDecodeFrame]
    rw [if_neg (by omega), if_neg (by omega), if_pos hshort]
  · rw [hhdr]
    simp only [tryDecodeFrame]
    rw [if_neg (by decide),
      show payloadSizeField [1, 32, 0, 0, 0, 0, 0, 0, 1, 0, 0, 0] = 32 from by decide,
      if_neg (by omega), if_pos (by decide)]
  · have hfull : tryDecodeFrame maxPS
        (rawPacket 1 ((strBytes s).take 31
          ++ List.replicate (32 - ((strBytes s).take 31).length) 0) ++ [])
        = FrameResult.frameOk
            ((rawPacket 1 ((strBytes s).take 31
              ++ List.replicate (32 - ((strBytes s).take 31).length) 0)).take 12)
            ((strBytes s).take 31 ++ List.replicate (32 - ((strBytes s).take 31).length) 0)
            [] :=
      tryDecodeFrame_rawPacket maxPS 1 _ [] (by omega) (by omega)
    rw [List.append_nil] at hfull
    rw [build_connect_req_eq_raw, hfull]
    have hdrop : (rawPacket 1 ((strBytes s).take 31
        ++ List.replicate (32 - ((strBytes s).take 31).length) 0)).drop 12
        = (strBytes s).take 31 ++ List.replicate (32 - ((strBytes s).take 31).length) 0 := by
      have := rawPacket_drop12 1 ((strBytes s).take 31
        ++ List.replicate (32 - ((strBytes s).take 31).length) 0) []
      rwa [List.append_nil, List.append_nil] at this
    rw [hdrop]

/-- Witness for C6 at a 5-byte fragment, the bare CONNECT_REQ header of
`Test` as the under-filled buffer, and the username `Test`. -/
theorem frame_decoder_waits_witness :
    tryDecodeFrame 1024 [1, 32, 0, 0, 0] = FrameResult.needMore
    ∧ tryDecodeFrame 1024 ((build_connect_req "Test").take 12) = FrameResult.needMore
    ∧ tryDecodeFrame 1024 (build_connect_req "Test")
        = FrameResult.frameOk ((build_connect_req "Test").take 12)
            ((build_connect_req "Test").drop 12) [] := by
  have h := frame_decoder_waits 1024 [1, 32, 0, 0, 0]
    ((build_connect_req "Test").take 12) "Test"
    (by decide) (by decide) (by decide) (by decide) (by decide)
  exact ⟨h.1, h.2.2.1, h.2.2.2⟩

/-- **C7**: every CONNECT_REQ processed in the `Connecting` state emits
exactly one CONNECT_ACK, carrying the admission status; on any non-OK
status the connection remains open in the `Connecting` state for a retry. -/
theorem connect_ack_exactly_once (l : Lobby) (raw : List Nat) :
    (handlePacket ConnState.connecting l (Packet.connectReq raw)).2.2
      = [Packet.connectAck ((tryAdmit l raw).2.2.getD 0) (tryAdmit l raw).2.1]
    ∧ ((tryAdmit l raw).2.1 ≠ Status.OK →
        (handlePacket ConnState.connecting l (Packet.connectReq raw)).1
          = ConnState.connecting) := by
  refine ⟨rfl, ?_⟩
  intro h
  simp [handlePacket, h]

/-- Witness for C7: an all-NUL username is rejected and the connection
stays in `Connecting`. -/
theorem connect_ack_exactly_once_witness :
    (handlePacket ConnState.connecting initLobby (Packet.connectReq [0, 0])).2.2
      = [Packet.connectAck ((tryAdmit initLobby [0, 0]).2.2.getD 0)
          (tryAdmit initLobby [0, 0]).2.1]
    ∧ (handlePacket ConnState.connecting initLobby (Packet.connectReq [0, 0])).1
        = ConnState.connecting :=
  ⟨(connect_ack_exactly_once initLobby [0, 0]).1,
   (connect_ack_exactly_once initLobby [0, 0]).2 (by decide)⟩

/-- **C8**: a well-framed packet with an unknown opcode, or a known opcode
illegal for the connection's current state (a second CONNECT_REQ after
admission, READY_STATUS before admission), is silently discarded — no
reply, no disconnection, no registry change; an unknown opcode is not a
framing error: the frame is still sliced off the buffer and the following
bytes are preserved, so the stream does not desynchronize. -/
theorem unknown_opcode_silent_discard (c : ConnState) (l : Lobby) (op : Nat)
    (payload : List Nat) (pid : Nat) (r b : Bool) (raw : List Nat) (maxPS : Nat)
    (rest : List Nat) (hop : decodePacket op payload = none)
    (hlt : payload.length < 65536) (hmax : payload.length ≤ maxPS) :
    handleFrame c l op payload = (c, l, [])
    ∧ (∀ o, 8 ≤ o → decodePacket o payload = none)
    ∧ decodePacket 255 payload = none
    ∧ handlePacket (ConnState.registered pid r) l (Packet.connectReq raw)
        = (ConnState.registered pid r, l, [])
    ∧ handlePacket ConnState.connecting l (Packet.readyStatus b)
        = (ConnState.connecting, l, [])
    ∧ tryDecodeFrame maxPS (rawPacket 255 payload ++ rest)
        = FrameResult.frameOk ((rawPacket 255 payload).take 12) payload rest := by
  have hunk : ∀ o, 8 ≤ o → decodePacket o payload = none := by
    intro o ho
    simp only [decodePacket]
    rw [if_neg (by omega), if_neg (by omega), if_neg (by omega), if_neg (by omega),
      if_neg (by omega), if_neg (by omega), if_neg (by omega)]
  exact ⟨by simp [handleFrame, hop], hunk, hunk 255 (by omega), rfl, rfl,
    tryDecodeFrame_rawPacket maxPS 255 payload rest hlt hmax⟩

/-- Witness for C8 at the 32-byte zero payload of the invalid-opcode test
packet, with trailing bytes `[9, 9]` preserved after the frame. -/
theorem unknown_opcode_silent_discard_witness :
    handleFrame ConnState.connecting initLobby 255 (List.replicate 32 0)
      = (ConnState.connecting, initLobby, [])
    ∧ decodePacket 255 (List.replicate 32 0) = none
    ∧ tryDecodeFrame 1024 (rawPacket 255 (List.replicate 32 0) ++ [9, 9])
        = FrameResult.frameOk ((rawPacket 255 (List.replicate 32 0)).take 12)
            (List.replicate 32 0) [9, 9] := by
  have h := unknown_opcode_silent_discard ConnState.connecting initLobby 255
    (List.replicate 32 0) 0 false false [] 1024 [9, 9]
    (by decide) (by decide) (by decide)
  exact ⟨h.1, h.2.2.1, h.2.2.2.2.2⟩

/-- Removing an element that fails the filter predicate strictly shrinks
the list. -/
theorem length_filter_lt_of_mem {α : Type} (pred : α → Bool) :
    ∀ (l : List α) (a : α), a ∈ l → pred a = false →
      (l.filter pred).length < l.length := by
  intro l
  induction l with
  | nil => intro a ha _; cases ha
  | cons x t ih =>
    intro a ha hpa
    rcases List.mem_cons.1 ha with rfl | hmem
    · rw [List.filter_cons, if_neg (by simp [hpa])]
      simp only [List.length_cons]
      have := List.length_filter_le pred t
      omega
    · cases hpx : pred x with
      | true =>
        rw [List.filter_cons, if_pos (by simp [hpx])]
        simp only [List.length_cons]
        have := ih a hmem hpa
        omega
      | false =>
        rw [List.filter_cons, if_neg (by simp [hpx])]
        simp only [List.length_cons]
        have := ih a hmem hpa
        omega

/-- After `removePlayer l p.pid`, the username of `p` is no longer
registered, provided the registered usernames were pairwise distinct. -/
theorem uname_not_mem_after_remove (l : Lobby) (p : Player)
    (hmem : p ∈ l.players) (hnodup : (usernames l).Nodup) :
    p.uname ∉ usernames (removePlayer l p.pid) := by
  intro hmem2
  rcases List.mem_map.1 hmem2 with ⟨q, hq, hqu⟩
  have hql : q ∈ l.players := List.mem_of_mem_filter hq
  have hqp : q = p := List.inj_on_of_nodup_map hnodup hql hmem hqu
  subst hqp
  have := List.of_mem_filter hq
  simp at this

/-- **C9**: a player that disconnects (its `remove` completed) and
reconnects with the same username is re-admitted with status `OK`, and its
prior readiness state does not carry over — the re-registered record starts
not-ready. -/
theorem reconnect_readmitted_not_ready (l : Lobby) (p : Player) (raw : List Nat)
    (hmem : p ∈ l.players) (hnorm : normalize raw = p.uname) (hne : p.uname ≠ [])
    (hnodup : (usernames l).Nodup) (hcap : l.players.length ≤ capacity) :
    (tryAdmit (removePlayer l p.pid) raw).2.1 = Status.OK
    ∧ (tryAdmit (removePlayer l p.pid) raw).1.players
        = (removePlayer l p.pid).players
          ++ [⟨smallestUnused (pids (removePlayer l p.pid)), p.uname, false⟩]
    ∧ (∀ q ∈ (tryAdmit (removePlayer l p.pid) raw).1.players,
        q.uname = p.uname → q.ready = false) := by
  have hfresh : p.uname ∉ usernames (removePlayer l p.pid) :=
    uname_not_mem_after_remove l p hmem hnodup
  have hlen : (removePlayer l p.pid).players.length < l.players.length :=
    length_filter_lt_of_mem _ l.players p hmem (by simp)
  have hcap2 : ¬ capacity ≤ (removePlayer l p.pid).players.length := by omega
  have hAdm : tryAdmit (removePlayer l p.pid) raw
      = ({ removePlayer l p.pid with
            players := (removePlayer l p.pid).players
              ++ [⟨smallestUnused (pids (removePlayer l p.pid)), p.uname, false⟩] },
         Status.OK, some (smallestUnused (pids (removePlayer l p.pid)))) := by
    simp only [tryAdmit, hnorm]
    rw [if_neg hne, if_neg hfresh, if_neg hcap2]
  refine ⟨by rw [hAdm], by rw [hAdm], ?_⟩
  intro q hq hqu
  rw [hAdm] at hq
  rcases List.mem_append.1 hq with hq1 | hq2
  · exact absurd (hqu ▸ List.mem_map_of_mem Player.uname hq1) hfresh
  · rw [List.mem_singleton.1 hq2]

/-- Witness for C9: the ready player `R` disconnects and reconnects with
the same username, landing not-ready with status `OK`. -/
theorem reconnect_readmitted_not_ready_witness :
    (tryAdmit (removePlayer ⟨[⟨0, [82], true⟩], false⟩ 0) [82]).2.1 = Status.OK
    ∧ (∀ q ∈ (tryAdmit (removePlayer ⟨[⟨0, [82], true⟩], false⟩ 0) [82]).1.players,
        q.uname = [82] → q.ready = false) := by
  have h := reconnect_readmitted_not_ready ⟨[⟨0, [82], true⟩], false⟩ ⟨0, [82], true⟩ [82]
    (by decide) (by decide) (by decide) (by decide) (by decide)
  exact ⟨h.1, h.2.2⟩

/-- **C10**: for every input string, `build_connect_req` returns exactly 44
bytes: the fixed 12-byte header `(opCode 0x01, payloadSize 32,
packetIndex 0, tickId 0, packetCount 1, three zero reserved bytes)`
followed by the 32-byte payload equal to the UTF-8 encoding truncated to at
most 31 bytes and right-padded with NUL, so the final byte (index 43) is
always `0x00`. -/
theorem build_connect_req_shape (s : String) :
    (build_connect_req s).length = 44
    ∧ (build_connect_req s).take 12 = [1, 32, 0, 0, 0, 0, 0, 0, 1, 0, 0, 0]
    ∧ (build_connect_req s).drop 12
        = (strBytes s).take 31 ++ List.replicate (32 - ((strBytes s).take 31).length) 0
    ∧ (build_connect_req s).drop 43 = [0] := by
  have h31 : ((strBytes s).take 31).length ≤ 31 := by
    rw [List.length_take]
    exact min_le_left _ _
  have hplen : ((strBytes s).take 31
      ++ List.replicate (32 - ((strBytes s).take 31).length) 0).length = 32 :=
    connectPayload_length _ h31
  have hlen : (build_connect_req s).length = 44 := by
    show (packHeader 1 32 0 0 1 ++ _).length = 44
    rw [List.length_append, packHeader_length, hplen]
  have htake : (build_connect_req s).take 12 = [1, 32, 0, 0, 0, 0, 0, 0, 1, 0, 0, 0] := by
    show (packHeader 1 32 0 0 1 ++ _).take 12 = _
    rw [List.take_left' (by rw [packHeader_length])]
    decide
  have hdrop : (build_connect_req s).drop 12
      = (strBytes s).take 31 ++ List.replicate (32 - ((strBytes s).take 31).length) 0 := by
    show (packHeader 1 32 0 0 1 ++ _).drop 12 = _
    exact List.drop_left' (by rw [packHeader_length])
  refine ⟨hlen, htake, hdrop, ?_⟩
  have hsplit : (build_connect_req s).drop 43 = ((build_connect_req s).drop 12).drop 31 := by
    rw [List.drop_drop]
  rw [hsplit, hdrop, List.drop_append_eq_append_drop,
    List.drop_eq_nil_of_le h31, List.drop_replicate, List.nil_append]
  rw [show 32 - ((strBytes s).take 31).length - (31 - ((strBytes s).take 31).length) = 1
    from by omega]
  rfl

end RType

section Sanity

example : RType.normalize (RType.strBytes "  Player  ") = RType.strBytes "Player" := by decide

example : RType.normalize [32, 32, 32, 32, 32] = [] := by decide

example : (RType.tryAdmit RType.initLobby (RType.strBytes "  Player  ")).2.1 = RType.Status.OK := by decide

example : RType.smallestUnused [0, 1, 3] = 2 := by decide

example : RType.smallestUnused [2, 0, 1] = 3 := by decide

example :
    RType.runEvents RType.initLobby
      [RType.Event.connect (RType.strBytes "A"), RType.Event.connect (RType.strBytes "B"),
       RType.Event.ready 0 true, RType.Event.ready 1 true]
    = ⟨[⟨0, [65], true⟩, ⟨1, [66], true⟩], true⟩ := by decide

example :
    RType.broadcastCount RType.initLobby
      [RType.Event.connect (RType.strBytes "A"), RType.Event.connect (RType.strBytes "B"),
       RType.Event.ready 0 true, RType.Event.ready 1 true, RType.Event.ready 0 false,
       RType.Event.ready 0 true]
    = 1 := by decide

example : RType.build_connect_req "Test" =
    [1, 32, 0, 0, 0, 0, 0, 0, 1, 0, 0, 0,
     84, 101, 115, 116, 0, 0, 0, 0, 0, 0, 0, 0, 0, 0, 0, 0,
     0, 0, 0, 0, 0, 0, 0, 0, 0, 0, 0, 0, 0, 0, 0, 0] := by decide

example : RType.build_ready_status true =
    [7, 4, 0, 0, 0, 0, 0, 0, 1, 0, 0, 0, 1, 0, 0, 0] := by decide

example : (RType.build_connect_req "Test").length = 44 := by decide

example :
    RType.decodePacket 1 ((RType.build_connect_req "Test").drop 12)
    = some (RType.Packet.connectReq [84, 101, 115, 116]) := by decide

example :
    RType.encodePacket (RType.Packet.connectReq [84, 101, 115, 116])
    = RType.build_connect_req "Test" := by decide

example :
    RType.encodePacket (RType.Packet.readyStatus true) = RType.build_ready_status true := by
  decide

example :
    RType.decodePacket 5 (RType.le32 305419896) = some (RType.Packet.gameStart 305419896) := by
  decide

example : RType.decodePacket 255 [] = none := by decide

example : RType.tryDecodeFrame 1024 ((RType.build_connect_req "Test").take 12)
    = RType.FrameResult.needMore := by decide

example : RType.tryDecodeFrame 1024 (RType.build_connect_req "Test")
    = RType.FrameResult.frameOk ((RType.build_connect_req "Test").take 12)
        ((RType.build_connect_req "Test").drop 12) [] := by decide

example :
    RType.handlePacket RType.ConnState.connecting RType.initLobby
      (RType.Packet.connectReq [84, 101, 115, 116])
    = (RType.ConnState.registered 0 false,
       ⟨[⟨0, [84, 101, 115, 116], false⟩], false⟩,
       [RType.Packet.connectAck 0 RType.Status.OK]) := by decide

example :
    RType.handlePacket RType.ConnState.connecting RType.initLobby
      (RType.Packet.connectReq [32, 32])
    = (RType.ConnState.connecting, RType.initLobby,
       [RType.Packet.connectAck 0 RType.Status.BadUsername]) := by decide

example :
    RType.handleFrame (RType.ConnState.registered 2 false) RType.initLobby 255
      (List.replicate 32 0)
    = (RType.ConnState.registered 2 false, RType.initLobby, []) := by decide

end Sanity
